import Mathlib

/-!
# Verification of the Constrict compression core (`src/constrict_utils.py`)

Shallow embedding of the pure computational core of the Constrict video
compressor: the Preset Table (`get_res_preset`), the Encode Settings
Deriver (`get_encode_settings`) and the Convergence Controller loop
(`compress`).  Python floats are idealised as exact rationals (`ℚ`);
Python's `round` (banker's rounding, round-half-to-even) is modelled by
`pyRound`.  The external transcoder is modelled as an oracle mapping the
attempt number to the measured output size in bytes (the happy path:
no transcode error, no cancellation); a measured size of zero makes the
controller's factor update divide by zero, which in Python raises
`ZeroDivisionError` — modelled by the distinct outcome `divZero`.
-/

namespace Constrict

/-- Python's built-in `round`: round half to even (banker's rounding),
idealised on exact rationals. -/
def pyRound (q : ℚ) : ℤ :=
  let f := ⌊q⌋
  let frac := q - f
  if frac < 1/2 then f
  else if 1/2 < frac then f + 1
  else if f % 2 = 0 then f else f + 1

/-- Enum `FpsMode` from `enums.py` (values `AUTO`, `PREFER_CLEAR`,
`PREFER_SMOOTH`, as used by `constrict_utils.py` and the frontends). -/
inductive FpsMode where
  | AUTO
  | PREFER_CLEAR
  | PREFER_SMOOTH
deriving DecidableEq, Repr

/-- The two bitrate→resolution tier tables of `get_res_preset`
(`bitrate_res_map_30`), as an ordered association list
`(bitrate_lower_bound_kbps, preset_width, preset_height)`. -/
def bitrate_res_map_30 : List (ℕ × ℕ × ℕ) :=
  [(12000, 3840, 2160), (6000, 2560, 1440), (1800, 1920, 1080),
   (1024, 1280, 720), (512, 640, 480), (276, 640, 360),
   (150, 320, 240), (0, 192, 144)]

/-- Table `bitrate_res_map_60` of `get_res_preset`. -/
def bitrate_res_map_60 : List (ℕ × ℕ × ℕ) :=
  [(18000, 3840, 2160), (9000, 2560, 1440), (3000, 1920, 1080),
   (1800, 1280, 720), (750, 640, 480), (276, 640, 360),
   (150, 320, 240), (0, 192, 144)]

/-- The `for` loop of `get_res_preset`: walk the tier table in order and
return the height of the first tier whose bitrate floor is ≤ the candidate
bitrate (in kbps) and whose canonical pixel count is ≤ the source pixel
count. -/
def findTier (table : List (ℕ × ℕ × ℕ)) (bitrate_kbps : ℚ) (source_pixels : ℕ) :
    Option ℕ :=
  match table with
  | [] => none
  | (bound, pw, ph) :: rest =>
      if (bound : ℚ) ≤ bitrate_kbps ∧ pw * ph ≤ source_pixels then some ph
      else findTier rest bitrate_kbps source_pixels

/-- Function `get_res_preset(bitrate, source_width, source_height, framerate)`:
suitable resolution preset height for a bitrate and source resolution.
Falls back (when no tier matches) to `source_width if portrait else
source_height`. -/
def get_res_preset (bitrate : ℤ) (source_width source_height : ℕ)
    (framerate : ℚ) : ℕ :=
  let source_pixels := source_width * source_height
  let bitrate_kbps : ℚ := (bitrate : ℚ) / 1000
  let map := if framerate ≤ 30 then bitrate_res_map_30 else bitrate_res_map_60
  match findTier map bitrate_kbps source_pixels with
  | some ph => ph
  | none => if source_height > source_width then source_width else source_height

/-- The settings tuple returned by `get_encode_settings`:
`(target_video_bitrate, target_audio_bitrate, preset_height, target_fps,
res_reduction_applied)`. -/
structure EncodeSettings where
  videoBitrate : ℤ
  audioBitrate : ℕ
  presetHeight : ℕ
  targetFps : ℚ
  resReductionApplied : Bool
deriving DecidableEq, Repr

/-- Expression `round(target_size_bits / duration)` of `get_encode_settings`:
the uncorrected bitrate from the byte budget
(`target_size_bits = target_size_MiB * 1024 * 1024 * 8`). -/
def baseBitrate (target_size_MiB : ℕ) (duration : ℚ) : ℤ :=
  pyRound ((target_size_MiB * 8388608 : ℕ) / duration)

/-- The corrected target bitrate of `get_encode_settings`:
`round(round(target_size_bits / duration) * factor * 0.965)`
(`0.965 = 193/200`, the overshoot-compensation constant). -/
def correctedTargetBitrate (target_size_MiB : ℕ) (duration factor : ℚ) : ℤ :=
  pyRound ((baseBitrate target_size_MiB duration : ℚ) * factor * (193/200))

/-- Line `crush_mode = (target_bitrate / 1000) < 150 + 96 or force_crush`
(line 559 of `constrict_utils.py`; the division is Python true division). -/
def crush_mode (target_bitrate : ℤ) (force_crush : Bool) : Bool :=
  decide ((target_bitrate : ℚ) / 1000 < 150 + 96) || force_crush

/-- Line `target_audio_bitrate = 6000 if crush_mode else 96000`. -/
def target_audio_bitrate (cm : Bool) : ℕ := if cm then 6000 else 96000

/-- Line `target_video_bitrate = target_bitrate - target_audio_bitrate` for a
given target size, duration, factor and `force_crush` flag. -/
def target_video_bitrate (target_size_MiB : ℕ) (duration factor : ℚ)
    (force_crush : Bool) : ℤ :=
  let tb := correctedTargetBitrate target_size_MiB duration factor
  tb - target_audio_bitrate (crush_mode tb force_crush)

/-- The `if crush_mode / elif fps_mode == ...` chain of
`get_encode_settings` choosing `(preset_height, max_fps)`
(`preset_height` stays `None` except in the `AUTO` branch). -/
def fpsCeilingAndPreset (cm : Bool) (fps_mode : FpsMode) (tvb : ℤ)
    (width height : ℕ) : Option ℕ × ℚ :=
  if cm then (none, 24)
  else match fps_mode with
    | .PREFER_CLEAR => (none, 30)
    | .PREFER_SMOOTH => (none, 60)
    | .AUTO =>
        let preset_height_30fps := get_res_preset tvb width height 30
        let preset_height_60fps := get_res_preset tvb width height 60
        let heights_match := preset_height_30fps = preset_height_60fps
        (some preset_height_30fps,
         if heights_match ∧ 720 ≤ preset_height_30fps then (60 : ℚ) else 30)

/-- Line `target_fps = fps if fps <= max_fps else max_fps`. -/
def target_fps_of (fps max_fps : ℚ) : ℚ := if fps ≤ max_fps then fps else max_fps

/-- The `preset_height` of `get_encode_settings` before the
`locked_in_height` clamp: the `AUTO` branch's 30 fps lookup if taken,
else a fresh `get_res_preset` lookup at `target_fps`. -/
def unclamped_preset_height (cm : Bool) (fps_mode : FpsMode) (tvb : ℤ)
    (width height : ℕ) (fps : ℚ) : ℕ :=
  let pre := fpsCeilingAndPreset cm fps_mode tvb width height
  let target_fps := target_fps_of fps pre.2
  match pre.1 with
  | some ph => ph
  | none => get_res_preset tvb width height target_fps

/-- Clamp step `if locked_in_height and preset_height > locked_in_height:` of
`get_encode_settings` — `None` and `0` are falsy in Python, so a `0`
ceiling is ignored.  Returns the (possibly clamped) height together with
the `res_reduction_applied` flag. -/
def lockClamp (locked_in_height : Option ℕ) (preset_height : ℕ) : ℕ × Bool :=
  match locked_in_height with
  | some lk =>
      if lk ≠ 0 ∧ lk < preset_height then (lk, true) else (preset_height, false)
  | none => (preset_height, false)

/-- Function `get_encode_settings(target_size_MiB, fps_mode, width, height, fps,
duration, factor, force_crush, locked_in_height)`. -/
def get_encode_settings (target_size_MiB : ℕ) (fps_mode : FpsMode)
    (width height : ℕ) (fps duration : ℚ) (factor : ℚ)
    (force_crush : Bool) (locked_in_height : Option ℕ) : EncodeSettings :=
  let target_bitrate := correctedTargetBitrate target_size_MiB duration factor
  let cm := crush_mode target_bitrate force_crush
  let tvb := target_video_bitrate target_size_MiB duration factor force_crush
  let pre := fpsCeilingAndPreset cm fps_mode tvb width height
  let target_fps := target_fps_of fps pre.2
  let preset_height := unclamped_preset_height cm fps_mode tvb width height fps
  let clamped := lockClamp locked_in_height preset_height
  ⟨tvb, target_audio_bitrate cm, clamped.1, target_fps, clamped.2⟩

/-- The even-dimension rounding expression of `compress`:
`int(((d / scaling_factor + 1) // 2) * 2)`.  Python float floor-division
`// 2` is `⌊·/2⌋`; the result is an even integer. -/
def evenDim (d : ℕ) (scaling_factor : ℚ) : ℤ :=
  2 * ⌊((d : ℚ) / scaling_factor + 1) / 2⌋

/-- The `(target_width, target_height)` actually passed to `transcode` by
`compress`, from the source dimensions and the preset height returned by
`get_encode_settings`.  For a portrait source (`height > width`) the preset
is used as the width and the height is derived; otherwise the preset is the
height and the width is derived. -/
def transcodeDims (width height : ℕ) (preset_height : ℕ) : ℤ × ℤ :=
  if height > width then
    let target_width : ℤ := preset_height
    let scaling_factor : ℚ := (width : ℚ) / (preset_height : ℚ)
    (target_width, evenDim height scaling_factor)
  else
    let scaling_factor : ℚ := (height : ℚ) / (preset_height : ℚ)
    (evenDim width scaling_factor, preset_height)

/-- Per-run configuration of `compress` (the arguments and probed video
properties that stay fixed over the attempt loop). -/
structure Config where
  target_size_MiB : ℕ
  fps_mode : FpsMode
  tolerance : ℕ
  width : ℕ
  height : ℕ
  source_fps : ℚ
  duration_seconds : ℚ
deriving DecidableEq, Repr

/-- Value `target_size_bytes = target_size_MiB * 1024 * 1024` in `compress`. -/
def target_size_bytes (cfg : Config) : ℕ := cfg.target_size_MiB * 1048576

/-- Value `percent_of_target = (100 / target_size_bytes) * after_size_bytes`. -/
def percentOfTarget (cfg : Config) (after_size_bytes : ℕ) : ℚ :=
  (100 / (target_size_bytes cfg : ℚ)) * after_size_bytes

/-- The mutable controller state of one `compress` run (the variables
initialised before the `while` loop). -/
structure LoopState where
  factor : ℚ
  attempt : ℕ
  force_crush : Bool
  lowest_res : Option ℕ
  percent_of_target : ℚ
  after_size_bytes : ℕ
deriving DecidableEq, Repr

/-- The controller state as initialised by `compress` before its loop. -/
def initState : LoopState :=
  { factor := 1, attempt := 0, force_crush := false, lowest_res := none,
    percent_of_target := 200, after_size_bytes := 0 }

/-- Terminal outcomes of the modelled `compress` loop.  `success` is the
`return after_size_bytes` path; `failedBitrateLow` is the
"video bitrate got too low (<5 kbps)" error return; `divZero` is the
`ZeroDivisionError` Python raises in `factor *= 0.98 * (100 /
percent_of_target)` when the measured output size is zero; `outOfFuel`
means the modelled iteration bound was exhausted. -/
inductive Outcome where
  | success (after_size_bytes : ℕ)
  | failedBitrateLow
  | divZero
  | outOfFuel
deriving DecidableEq, Repr

/-- The `get_encode_settings` call made by one iteration of `compress`,
with the current controller state's factor, force-crush flag and
resolution ceiling. -/
def stepSettings (cfg : Config) (st : LoopState) : EncodeSettings :=
  get_encode_settings cfg.target_size_MiB cfg.fps_mode cfg.width cfg.height
    cfg.source_fps cfg.duration_seconds st.factor st.force_crush st.lowest_res

/-- One iteration of the `while` body of `compress`.  The external
transcoder is the `oracle`, giving the measured output size in bytes for
each attempt number (happy path: no transcode error, no cancellation).
Returns either the next loop state (`Sum.inl`) or a terminal outcome
(`Sum.inr`); a `Sum.inr (.success _)` from here is the early `break`
taken when `res_reduction_applied` and the output is under target. -/
def compressStep (cfg : Config) (oracle : ℕ → ℕ) (st : LoopState) :
    LoopState ⊕ Outcome :=
  let attempt := st.attempt + 1
  let es := stepSettings cfg st
  let is_hq_audio : Bool := decide (48000 < es.audioBitrate)
  let force_crush := st.force_crush || !is_hq_audio
  if es.videoBitrate < 5000 then Sum.inr .failedBitrateLow
  else
    let dims := transcodeDims cfg.width cfg.height es.presetHeight
    let target_height := dims.2
    let after_size_bytes := oracle attempt
    let percent_of_target := percentOfTarget cfg after_size_bytes
    if es.resReductionApplied ∧ percent_of_target < 100 then
      Sum.inr (.success after_size_bytes)
    else
      let lowest_res :=
        if 50 < percent_of_target then some target_height.toNat
        else st.lowest_res
      if percent_of_target = 0 then Sum.inr .divZero
      else Sum.inl
        { factor := st.factor * (49/50) * (100 / percent_of_target),
          attempt := attempt, force_crush := force_crush,
          lowest_res := lowest_res, percent_of_target := percent_of_target,
          after_size_bytes := after_size_bytes }

/-- The `while (percent_of_target < 100 - tolerance) or
(percent_of_target > 100)` loop of `compress`, with an explicit iteration
bound `fuel`.  Exiting the loop returns `after_size_bytes` (success). -/
def compressLoop (fuel : ℕ) (cfg : Config) (oracle : ℕ → ℕ)
    (st : LoopState) : Outcome :=
  match fuel with
  | 0 => .outOfFuel
  | fuel + 1 =>
      if st.percent_of_target < 100 - (cfg.tolerance : ℚ) ∨
          100 < st.percent_of_target then
        match compressStep cfg oracle st with
        | Sum.inr o => o
        | Sum.inl st' => compressLoop fuel cfg oracle st'
      else .success st.after_size_bytes

/-- The controller loop of `compress`, started from the initial state. -/
def compress (cfg : Config) (oracle : ℕ → ℕ) (fuel : ℕ) : Outcome :=
  compressLoop fuel cfg oracle initState

/-! ## Basic lemmas about the embedded definitions -/

theorem pyRound_bounds (q : ℚ) : ⌊q⌋ ≤ pyRound q ∧ pyRound q ≤ ⌊q⌋ + 1 := by
  simp only [pyRound]
  split_ifs <;> omega

theorem pyRound_mono {a b : ℚ} (h : a ≤ b) : pyRound a ≤ pyRound b := by
  rcases lt_or_eq_of_le (Int.floor_le_floor h) with hf | hf
  · calc pyRound a ≤ ⌊a⌋ + 1 := (pyRound_bounds a).2
      _ ≤ ⌊b⌋ := hf
      _ ≤ pyRound b := (pyRound_bounds b).1
  · simp only [pyRound]
    rw [← hf]
    have h1 : a - (⌊a⌋ : ℚ) ≤ b - (⌊a⌋ : ℚ) := by linarith
    split_ifs <;> first | omega | linarith

theorem pyRound_nonneg {q : ℚ} (h : 0 ≤ q) : 0 ≤ pyRound q := by
  have h1 := (pyRound_bounds q).1
  have h2 : (0 : ℤ) ≤ ⌊q⌋ := Int.floor_nonneg.mpr h
  omega

theorem pyRound_intCast (n : ℤ) : pyRound (n : ℚ) = n := by
  unfold pyRound
  rw [Int.floor_intCast]
  norm_num

theorem crush_mode_iff (tb : ℤ) (fc : Bool) :
    crush_mode tb fc = true ↔ (tb < 246000 ∨ fc = true) := by
  unfold crush_mode
  have hcast : ((tb : ℚ) / 1000 < 150 + 96) ↔ tb < 246000 := by
    rw [div_lt_iff₀ (by norm_num : (0:ℚ) < 1000)]
    constructor
    · intro hq
      exact_mod_cast hq
    · intro hz
      have : (tb : ℚ) < ((246000 : ℤ) : ℚ) := by exact_mod_cast hz
      push_cast at this ⊢
      linarith
  simp [hcast]

theorem baseBitrate_nonneg (M : ℕ) {dur : ℚ} (hdur : 0 < dur) :
    0 ≤ baseBitrate M dur := by
  apply pyRound_nonneg
  positivity

/-! ### `findTier` and `get_res_preset` -/

theorem findTier_some {table : List (ℕ × ℕ × ℕ)} {kbps : ℚ} {px ph : ℕ}
    (h : findTier table kbps px = some ph) :
    ∃ bound pw, (bound, pw, ph) ∈ table ∧ pw * ph ≤ px := by
  induction table with
  | nil => simp [findTier] at h
  | cons e rest ih =>
      obtain ⟨bound, pw, ph'⟩ := e
      rw [findTier] at h
      split_ifs at h with hc
      · obtain rfl : ph' = ph := by injection h
        exact ⟨bound, pw, List.mem_cons_self _ _, hc.2⟩
      · obtain ⟨b, w, hmem, hle⟩ := ih h
        exact ⟨b, w, List.mem_cons_of_mem _ hmem, hle⟩

theorem findTier_none {table : List (ℕ × ℕ × ℕ)} {kbps : ℚ} {px : ℕ}
    (h : findTier table kbps px = none) :
    ∀ bound pw ph, (bound, pw, ph) ∈ table →
      ¬((bound : ℚ) ≤ kbps ∧ pw * ph ≤ px) := by
  induction table with
  | nil => intro b pw ph hmem; simp at hmem
  | cons e rest ih =>
      obtain ⟨bound, pw, ph'⟩ := e
      rw [findTier] at h
      split_ifs at h with hc
      intro b w p hmem
      rcases List.mem_cons.mp hmem with heq | hmem'
      · obtain ⟨rfl, rfl, rfl⟩ : b = bound ∧ w = pw ∧ p = ph' := by
          injection heq with h1 h2
          injection h2 with h3 h4
          exact ⟨h1, h3, h4⟩
        exact hc
      · exact ih h b w p hmem'

/-- Every tier of both tables is landscape: the preset height is at most
the preset width. -/
theorem table_height_le_width :
    ∀ e ∈ bitrate_res_map_30 ++ bitrate_res_map_60, e.2.2 ≤ e.2.1 := by
  decide

/-- Every tier height of both tables is even. -/
theorem table_height_even :
    ∀ e ∈ bitrate_res_map_30 ++ bitrate_res_map_60, 2 ∣ e.2.2 := by
  decide

theorem mem_table_of_findTier_if {fr kbps : ℚ} {px ph : ℕ}
    (hft : findTier (if fr ≤ 30 then bitrate_res_map_30 else bitrate_res_map_60)
      kbps px = some ph) :
    ∃ bound pw, (bound, pw, ph) ∈ bitrate_res_map_30 ++ bitrate_res_map_60 ∧
      pw * ph ≤ px := by
  split_ifs at hft <;> obtain ⟨b, pw, hmem, hle⟩ := findTier_some hft
  · exact ⟨b, pw, List.mem_append_left _ hmem, hle⟩
  · exact ⟨b, pw, List.mem_append_right _ hmem, hle⟩

theorem get_res_preset_le_max (bitrate : ℤ) (w h : ℕ) (fr : ℚ) :
    get_res_preset bitrate w h fr ≤ max w h := by
  simp only [get_res_preset]
  split
  · next ph hft =>
      obtain ⟨b, pw, hmem, hpx⟩ := mem_table_of_findTier_if hft
      have hle : ph ≤ pw := table_height_le_width _ hmem
      have h1 : ph * ph ≤ pw * ph := Nat.mul_le_mul_right _ hle
      have h2 : w * h ≤ max w h * max w h :=
        Nat.mul_le_mul (le_max_left w h) (le_max_right w h)
      by_contra hcon
      push_neg at hcon
      exact absurd (le_trans h1 (le_trans hpx h2))
        (not_le.mpr (Nat.mul_self_lt_mul_self hcon))
  · split_ifs with hp
    · exact le_max_left w h
    · exact le_max_right w h

theorem lockClamp_le {lk : ℕ} (p : ℕ) (hlk : lk ≠ 0) :
    (lockClamp (some lk) p).1 ≤ lk := by
  simp only [lockClamp]
  split_ifs with hc
  · exact le_refl lk
  · push_neg at hc
    exact le_of_not_lt (fun hlt => absurd (hc hlk) (not_le.mpr hlt))

/-! ### Projection lemmas for `get_encode_settings` -/

theorem ges_videoBitrate (M : ℕ) (fm : FpsMode) (w h : ℕ) (fps dur f : ℚ)
    (fc : Bool) (lk : Option ℕ) :
    (get_encode_settings M fm w h fps dur f fc lk).videoBitrate
      = target_video_bitrate M dur f fc := rfl

theorem ges_audioBitrate (M : ℕ) (fm : FpsMode) (w h : ℕ) (fps dur f : ℚ)
    (fc : Bool) (lk : Option ℕ) :
    (get_encode_settings M fm w h fps dur f fc lk).audioBitrate
      = target_audio_bitrate (crush_mode (correctedTargetBitrate M dur f) fc) := rfl

theorem ges_presetHeight (M : ℕ) (fm : FpsMode) (w h : ℕ) (fps dur f : ℚ)
    (fc : Bool) (lk : Option ℕ) :
    (get_encode_settings M fm w h fps dur f fc lk).presetHeight
      = (lockClamp lk (unclamped_preset_height
          (crush_mode (correctedTargetBitrate M dur f) fc) fm
          (target_video_bitrate M dur f fc) w h fps)).1 := rfl

theorem ges_targetFps (M : ℕ) (fm : FpsMode) (w h : ℕ) (fps dur f : ℚ)
    (fc : Bool) (lk : Option ℕ) :
    (get_encode_settings M fm w h fps dur f fc lk).targetFps
      = target_fps_of fps (fpsCeilingAndPreset
          (crush_mode (correctedTargetBitrate M dur f) fc) fm
          (target_video_bitrate M dur f fc) w h).2 := rfl

theorem ges_resReduction (M : ℕ) (fm : FpsMode) (w h : ℕ) (fps dur f : ℚ)
    (fc : Bool) (lk : Option ℕ) :
    (get_encode_settings M fm w h fps dur f fc lk).resReductionApplied
      = (lockClamp lk (unclamped_preset_height
          (crush_mode (correctedTargetBitrate M dur f) fc) fm
          (target_video_bitrate M dur f fc) w h fps)).2 := rfl

/-- The unclamped preset height is always a `get_res_preset` value for the
same bitrate and source dimensions (at 30 fps in the `AUTO` branch, at
`target_fps` otherwise). -/
theorem unclamped_preset_height_eq (cm : Bool) (fm : FpsMode) (tvb : ℤ)
    (w h : ℕ) (fps : ℚ) :
    ∃ fr, unclamped_preset_height cm fm tvb w h fps = get_res_preset tvb w h fr := by
  unfold unclamped_preset_height fpsCeilingAndPreset
  cases cm with
  | true => exact ⟨_, rfl⟩
  | false =>
      cases fm with
      | AUTO => exact ⟨30, rfl⟩
      | PREFER_CLEAR => exact ⟨_, rfl⟩
      | PREFER_SMOOTH => exact ⟨_, rfl⟩

/-! ### Inversion lemmas for one controller iteration -/

theorem compressStep_inr_success {cfg : Config} {oracle : ℕ → ℕ}
    {st : LoopState} {s : ℕ}
    (h : compressStep cfg oracle st = Sum.inr (.success s)) :
    s = oracle (st.attempt + 1) ∧
    (stepSettings cfg st).resReductionApplied = true ∧
    percentOfTarget cfg s < 100 := by
  simp only [compressStep] at h
  split_ifs at h with h1 h2 h3 <;> simp_all

theorem compressStep_inl {cfg : Config} {oracle : ℕ → ℕ} {st st' : LoopState}
    (h : compressStep cfg oracle st = Sum.inl st') :
    st' = { factor := st.factor * (49/50) *
              (100 / percentOfTarget cfg (oracle (st.attempt + 1))),
            attempt := st.attempt + 1,
            force_crush := st.force_crush ||
              !(decide (48000 < (stepSettings cfg st).audioBitrate)),
            lowest_res :=
              if 50 < percentOfTarget cfg (oracle (st.attempt + 1)) then
                some (transcodeDims cfg.width cfg.height
                  (stepSettings cfg st).presetHeight).2.toNat
              else st.lowest_res,
            percent_of_target := percentOfTarget cfg (oracle (st.attempt + 1)),
            after_size_bytes := oracle (st.attempt + 1) } ∧
    ¬ (stepSettings cfg st).videoBitrate < 5000 ∧
    percentOfTarget cfg (oracle (st.attempt + 1)) ≠ 0 := by
  simp only [compressStep] at h
  split_ifs at h ⊢ with h1 h2 h3 h4 <;> simp_all

theorem lockClamp_fst_le (lk : Option ℕ) (p : ℕ) : (lockClamp lk p).1 ≤ p := by
  cases lk with
  | none => exact le_refl p
  | some l =>
      simp only [lockClamp]
      split_ifs with hc
      · exact le_of_lt hc.2
      · exact le_refl p

theorem target_fps_of_eq_min (fps mf : ℚ) : target_fps_of fps mf = min fps mf := by
  rw [target_fps_of, min_def]

/-- Every tier of both tables has a canonical pixel count of at least
`192 * 144 = 27648`. -/
theorem table_pixels_ge :
    ∀ e ∈ bitrate_res_map_30 ++ bitrate_res_map_60, 27648 ≤ e.2.1 * e.2.2 := by
  decide

/-! ## The claims -/

/-- C6: with `force_crush` false, crush mode activates exactly when the
overshoot-corrected target bitrate is strictly below 246000 bps, so the
audio bitrate is the crushed 6000 for a target bitrate of 245999 and the
normal 96000 for a target bitrate of exactly 246000. -/
theorem c6_crush_boundary (M : ℕ) (fm : FpsMode) (w h : ℕ) (fps dur f : ℚ) :
    (get_encode_settings M fm w h fps dur f false none).audioBitrate
      = if correctedTargetBitrate M dur f < 246000 then 6000 else 96000 := by
  rw [ges_audioBitrate]
  unfold target_audio_bitrate
  rcases lt_or_le (correctedTargetBitrate M dur f) 246000 with hlt | hge
  · rw [if_pos ((crush_mode_iff _ _).mpr (Or.inl hlt)), if_pos hlt]
  · rw [if_neg, if_neg (not_lt.mpr hge)]
    intro hcm
    rcases (crush_mode_iff _ _).mp hcm with h1 | h2
    · exact absurd h1 (not_lt.mpr hge)
    · exact Bool.false_ne_true h2

/-- C2 counterexample: with `force_crush` false, a smaller scale factor
(corrected target bitrate 245999, crush mode on, audio 6000) yields video
bitrate 239999, while a larger factor (target bitrate 246000, crush mode
off, audio 96000) yields only 150000 — the video bitrate is not
monotone in the scale factor across the crush-mode boundary. -/
theorem c2_counterexample :
    (245999 * 200 / (193 * 8388608) : ℚ) ≤ (246000 * 200 / (193 * 8388608) : ℚ) ∧
    (get_encode_settings 1 .AUTO 1920 1080 30 1
        (246000 * 200 / (193 * 8388608) : ℚ) false none).videoBitrate
      < (get_encode_settings 1 .AUTO 1920 1080 30 1
        (245999 * 200 / (193 * 8388608) : ℚ) false none).videoBitrate := by
  constructor
  · norm_num
  · norm_num [get_encode_settings, correctedTargetBitrate, baseBitrate, pyRound,
      crush_mode, target_audio_bitrate, target_video_bitrate, fpsCeilingAndPreset,
      target_fps_of, unclamped_preset_height, lockClamp, get_res_preset, findTier,
      bitrate_res_map_30, bitrate_res_map_60]

/-- C2 amended: for fixed target size, policy, source properties,
`force_crush` flag and resolution ceiling, and a positive duration, the
video bitrate returned by `get_encode_settings` is monotonically
non-decreasing in the scale factor PROVIDED the crush-mode status is the
same at both factors; across the crush-mode boundary it can decrease. -/
theorem c2_amended (M : ℕ) (fm : FpsMode) (w h : ℕ) (fps dur f1 f2 : ℚ)
    (fc : Bool) (lk1 lk2 : Option ℕ) (hdur : 0 < dur) (hle : f1 ≤ f2)
    (hcrush : crush_mode (correctedTargetBitrate M dur f1) fc
            = crush_mode (correctedTargetBitrate M dur f2) fc) :
    (get_encode_settings M fm w h fps dur f1 fc lk1).videoBitrate
      ≤ (get_encode_settings M fm w h fps dur f2 fc lk2).videoBitrate := by
  rw [ges_videoBitrate, ges_videoBitrate]
  simp only [target_video_bitrate]
  have htb : correctedTargetBitrate M dur f1 ≤ correctedTargetBitrate M dur f2 := by
    unfold correctedTargetBitrate
    apply pyRound_mono
    have hb : (0:ℚ) ≤ (baseBitrate M dur : ℚ) := by
      exact_mod_cast baseBitrate_nonneg M hdur
    have h1 := mul_le_mul_of_nonneg_left hle hb
    exact mul_le_mul_of_nonneg_right h1 (by norm_num)
  rw [hcrush]
  exact sub_le_sub htb (le_refl _)

theorem c2_witness :
    (0:ℚ) < 1 ∧ (1:ℚ) ≤ 2 ∧
    (get_encode_settings 1 .AUTO 1920 1080 30 1 1 false none).videoBitrate
      ≤ (get_encode_settings 1 .AUTO 1920 1080 30 1 2 false none).videoBitrate :=
  ⟨by norm_num, by norm_num,
   c2_amended 1 .AUTO 1920 1080 30 1 1 2 false none none (by norm_num)
     (by norm_num)
     (by norm_num [crush_mode, correctedTargetBitrate, baseBitrate, pyRound])⟩

/-- C3 counterexample: for the very wide source 2000×300 at a bitrate in
the 480p tier, `get_encode_settings` (via `get_res_preset`) returns an
output height of 480, strictly larger than the source height 300. -/
theorem c3_counterexample :
    (get_encode_settings 1 .PREFER_CLEAR 2000 300 30 10 1 false none).presetHeight
      = 480 ∧
    300 < (get_encode_settings 1 .PREFER_CLEAR 2000 300 30 10
      1 false none).presetHeight := by
  have h : (get_encode_settings 1 .PREFER_CLEAR 2000 300 30 10
      1 false none).presetHeight = 480 := by
    norm_num [get_encode_settings, correctedTargetBitrate, baseBitrate, pyRound,
      crush_mode, target_audio_bitrate, target_video_bitrate, fpsCeilingAndPreset,
      target_fps_of, unclamped_preset_height, lockClamp, get_res_preset, findTier,
      bitrate_res_map_30, bitrate_res_map_60]
  exact ⟨h, by rw [h]; norm_num⟩

/-- C3 amended: the returned output height never exceeds the larger
source dimension `max width height` (the preset's pixel count never
exceeds the source pixel count), and the returned output framerate never
exceeds the source framerate; the height can however exceed the source
*height* for sources wider than the preset's aspect. -/
theorem c3_amended (M : ℕ) (fm : FpsMode) (w h : ℕ) (fps dur f : ℚ)
    (fc : Bool) (lk : Option ℕ) :
    (get_encode_settings M fm w h fps dur f fc lk).presetHeight ≤ max w h ∧
    (get_encode_settings M fm w h fps dur f fc lk).targetFps ≤ fps := by
  constructor
  · rw [ges_presetHeight]
    obtain ⟨fr, hfr⟩ := unclamped_preset_height_eq
      (crush_mode (correctedTargetBitrate M dur f) fc) fm
      (target_video_bitrate M dur f fc) w h fps
    calc (lockClamp lk (unclamped_preset_height
            (crush_mode (correctedTargetBitrate M dur f) fc) fm
            (target_video_bitrate M dur f fc) w h fps)).1
        ≤ unclamped_preset_height
            (crush_mode (correctedTargetBitrate M dur f) fc) fm
            (target_video_bitrate M dur f fc) w h fps := lockClamp_fst_le lk _
      _ ≤ max w h := by rw [hfr]; exact get_res_preset_le_max _ _ _ _
  · rw [ges_targetFps, target_fps_of_eq_min]
    exact min_le_left _ _

/-- C4 counterexample: at a floor-breach input (1 MiB target over a
10000 s video), `get_encode_settings` does NOT return a "too low"
sentinel — it returns an ordinary settings tuple whose video bitrate
(−5190 bps) is below the 5000 bps floor; the floor check lives in
`compress`, not in the Deriver. -/
theorem c4_counterexample :
    get_encode_settings 1 .AUTO 1920 1080 30 10000 1 false none
      = ⟨-5190, 6000, 1080, 24, false⟩ ∧
    (get_encode_settings 1 .AUTO 1920 1080 30 10000 1 false none).videoBitrate
      < 5000 := by
  have h : get_encode_settings 1 .AUTO 1920 1080 30 10000 1 false none
      = ⟨-5190, 6000, 1080, 24, false⟩ := by
    norm_num [get_encode_settings, correctedTargetBitrate, baseBitrate, pyRound,
      crush_mode, target_audio_bitrate, target_video_bitrate, fpsCeilingAndPreset,
      target_fps_of, unclamped_preset_height, lockClamp, get_res_preset, findTier,
      bitrate_res_map_30, bitrate_res_map_60]
  exact ⟨h, by rw [h]; norm_num⟩

/-- C4 amended: `get_encode_settings` always returns a settings tuple;
whenever that tuple's video bitrate is below the 5000 bps floor, the
controller terminates the run as failed within the same iteration,
without invoking the transcoder (the outcome is the same for every
oracle). -/
theorem c4_amended (cfg : Config) (st : LoopState) (oracle : ℕ → ℕ)
    (h : (stepSettings cfg st).videoBitrate < 5000) :
    compressStep cfg oracle st = Sum.inr Outcome.failedBitrateLow := by
  simp only [compressStep]
  rw [if_pos h]

theorem c4_witness :
    compressStep ⟨1, .AUTO, 10, 1920, 1080, 30, 10000⟩ (fun _ => 0) initState
      = Sum.inr Outcome.failedBitrateLow :=
  c4_amended ⟨1, .AUTO, 10, 1920, 1080, 30, 10000⟩ initState (fun _ => 0)
    (by norm_num [stepSettings, initState, get_encode_settings,
      correctedTargetBitrate, baseBitrate, pyRound, crush_mode,
      target_audio_bitrate, target_video_bitrate, fpsCeilingAndPreset,
      target_fps_of, unclamped_preset_height, lockClamp, get_res_preset,
      findTier, bitrate_res_map_30, bitrate_res_map_60])

/-- C5 counterexample: for the 100×80 source (pixel count below the
lowest tier's 192×144 frame) `get_res_preset` falls back to the SHORT
edge 80, not the long-edge dimension 100. -/
theorem c5_counterexample :
    get_res_preset 1000000 100 80 30 = 80 ∧
    ¬ get_res_preset 1000000 100 80 30 = max 100 80 := by
  have h : get_res_preset 1000000 100 80 30 = 80 := by
    norm_num [get_res_preset, findTier, bitrate_res_map_30, bitrate_res_map_60]
  exact ⟨h, by rw [h]; norm_num⟩

/-- C5 amended: for every source whose pixel count is smaller than the
lowest tier's canonical 192×144 frame, `get_res_preset` matches no tier
and falls back to the source's SHORT-edge dimension
`min source_width source_height`. -/
theorem c5_amended (bitrate : ℤ) (w h : ℕ) (fr : ℚ) (hpx : w * h < 27648) :
    get_res_preset bitrate w h fr = min w h := by
  simp only [get_res_preset]
  split
  · next ph hft =>
      obtain ⟨b, pw, hmem, hple⟩ := mem_table_of_findTier_if hft
      have h1 : 27648 ≤ pw * ph := table_pixels_ge _ hmem
      omega
  · split_ifs with hp <;> omega

theorem c5_witness :
    100 * 80 < 27648 ∧ get_res_preset 1000000 100 80 30 = min 100 80 :=
  ⟨by norm_num, c5_amended 1000000 100 80 30 (by norm_num)⟩

/-- C9: with `force_crush` false and crush mode inactive, under the
`AUTO` framerate policy the framerate ceiling is 60 fps exactly when the
preset-table lookups at 30 fps and 60 fps agree and the agreed height is
at least 720; otherwise it is 30 fps; the returned output framerate is
the minimum of the source framerate and the ceiling. -/
theorem c9_auto_framerate (M : ℕ) (w h : ℕ) (fps dur f : ℚ) (lk : Option ℕ)
    (hcm : crush_mode (correctedTargetBitrate M dur f) false = false) :
    (get_encode_settings M .AUTO w h fps dur f false lk).targetFps
      = if get_res_preset (target_video_bitrate M dur f false) w h 30
            = get_res_preset (target_video_bitrate M dur f false) w h 60
          ∧ 720 ≤ get_res_preset (target_video_bitrate M dur f false) w h 30
        then min fps 60 else min fps 30 := by
  rw [ges_targetFps]
  rw [hcm]
  simp only [fpsCeilingAndPreset, Bool.false_eq_true, if_false]
  rw [target_fps_of_eq_min]
  split_ifs with hc
  · rfl
  · rfl

theorem c9_witness :
    crush_mode (correctedTargetBitrate 1 1 1) false = false ∧
    (get_encode_settings 1 .AUTO 1920 1080 60 1 1 false none).targetFps
      = if get_res_preset (target_video_bitrate 1 1 1 false) 1920 1080 30
            = get_res_preset (target_video_bitrate 1 1 1 false) 1920 1080 60
          ∧ 720 ≤ get_res_preset (target_video_bitrate 1 1 1 false) 1920 1080 30
        then min (60:ℚ) 60 else min (60:ℚ) 30 :=
  ⟨by norm_num [crush_mode, correctedTargetBitrate, baseBitrate, pyRound],
   c9_auto_framerate 1 1920 1080 60 1 1 none
     (by norm_num [crush_mode, correctedTargetBitrate, baseBitrate, pyRound])⟩

/-- C10 counterexample: for the 150×81 source (fallback preset height 81,
odd) the attempt made by `compress` from the initial state passes the
bitrate floor, and the height actually passed to `transcode` is the odd
number 81 — the claim that both dimensions are always even is false. -/
theorem c10_counterexample :
    5000 ≤ (get_encode_settings 1 .AUTO 150 81 30 60 1 false none).videoBitrate ∧
    (transcodeDims 150 81
      (get_encode_settings 1 .AUTO 150 81 30 60 1 false none).presetHeight).2 = 81 ∧
    ¬ (2:ℤ) ∣ 81 := by
  have h : get_encode_settings 1 .AUTO 150 81 30 60 1 false none
      = ⟨128917, 6000, 81, 24, false⟩ := by
    norm_num [get_encode_settings, correctedTargetBitrate, baseBitrate, pyRound,
      crush_mode, target_audio_bitrate, target_video_bitrate, fpsCeilingAndPreset,
      target_fps_of, unclamped_preset_height, lockClamp, get_res_preset, findTier,
      bitrate_res_map_30, bitrate_res_map_60]
  refine ⟨by rw [h]; norm_num, ?_, by decide⟩
  rw [h]
  norm_num [transcodeDims, evenDim]

/-- C10 amended: the dimension derived via the aspect-ratio expression
`int(((d / scaling_factor + 1) // 2) * 2)` is always even; the other
dimension is the preset height, which is even whenever it comes from a
preset-table tier (candidate bitrate ≥ 0 and source pixel count ≥
192·144) but may be odd when the fallback short-edge dimension is used. -/
theorem c10_amended :
    (∀ (d : ℕ) (s : ℚ), (2:ℤ) ∣ evenDim d s) ∧
    (∀ (br : ℤ) (w h : ℕ) (fr : ℚ), 0 ≤ br → 27648 ≤ w * h →
      2 ∣ get_res_preset br w h fr) := by
  constructor
  · intro d s
    unfold evenDim
    exact dvd_mul_right 2 _
  · intro br w h fr hbr hpx
    simp only [get_res_preset]
    split
    · next ph hft =>
        obtain ⟨b, pw, hmem, _⟩ := mem_table_of_findTier_if hft
        exact table_height_even _ hmem
    · next hft =>
        exfalso
        have hmem : ((0:ℕ), (192:ℕ), (144:ℕ)) ∈
            (if fr ≤ 30 then bitrate_res_map_30 else bitrate_res_map_60) := by
          split_ifs <;> decide
        apply findTier_none hft 0 192 144 hmem
        constructor
        · have : (0:ℚ) ≤ (br : ℚ) / 1000 := by
            apply div_nonneg _ (by norm_num)
            exact_mod_cast hbr
          simpa using this
        · omega

theorem c10_witness :
    (2:ℤ) ∣ evenDim 150 (81/81 : ℚ) ∧ 2 ∣ get_res_preset 512000 1920 1080 30 :=
  ⟨c10_amended.1 150 (81/81 : ℚ),
   c10_amended.2 512000 1920 1080 30 (by norm_num) (by norm_num)⟩

/-- C7 counterexample: if the transcoder produces a zero-byte output
file, the controller's factor update `factor *= 0.98 * (100 /
percent_of_target)` divides by zero (a `ZeroDivisionError` in Python) —
the update is not well-defined for every possible measured output
size. -/
theorem c7_counterexample :
    compressStep ⟨1, .PREFER_CLEAR, 10, 1920, 1080, 30, (8388608/725389 : ℚ)⟩
      (fun _ => 0) initState = Sum.inr Outcome.divZero := by
  norm_num [compressStep, stepSettings, initState, percentOfTarget,
    target_size_bytes, transcodeDims, evenDim, get_encode_settings,
    correctedTargetBitrate, baseBitrate, pyRound, crush_mode,
    target_audio_bitrate, target_video_bitrate, fpsCeilingAndPreset,
    target_fps_of, unclamped_preset_height, lockClamp, get_res_preset, findTier,
    bitrate_res_map_30, bitrate_res_map_60]

/-- C7 amended: the scale factor starts at 1.0, and for every attempt
whose measured output size is positive the factor update is well-defined
and preserves strict positivity of the factor; a zero measured size
instead raises a division-by-zero error. -/
theorem c7_amended :
    initState.factor = 1 ∧
    ∀ (cfg : Config) (oracle : ℕ → ℕ) (st st' : LoopState),
      0 < cfg.target_size_MiB → 0 < st.factor → 0 < oracle (st.attempt + 1) →
      compressStep cfg oracle st = Sum.inl st' → 0 < st'.factor := by
  refine ⟨rfl, ?_⟩
  intro cfg oracle st st' hM hf hs hstep
  obtain ⟨rfl, _, _⟩ := compressStep_inl hstep
  have hTB : (0:ℚ) < (target_size_bytes cfg : ℚ) := by
    have h1 : 0 < target_size_bytes cfg := Nat.mul_pos hM (by norm_num)
    exact_mod_cast h1
  have hpct : 0 < percentOfTarget cfg (oracle (st.attempt + 1)) := by
    unfold percentOfTarget
    apply mul_pos (div_pos (by norm_num) hTB)
    exact_mod_cast hs
  exact mul_pos (mul_pos hf (by norm_num)) (div_pos (by norm_num) hpct)

theorem c7_witness :
    0 < (⟨(1835008/1123475 : ℚ), 1, false, some 480,
      (7864325/131072 : ℚ), 629146⟩ : LoopState).factor :=
  c7_amended.2 ⟨1, .PREFER_CLEAR, 10, 1920, 1080, 30, (8388608/725389 : ℚ)⟩
    (fun _ => 629146) initState
    ⟨(1835008/1123475 : ℚ), 1, false, some 480, (7864325/131072 : ℚ), 629146⟩
    (by norm_num) (by norm_num [initState]) (by norm_num)
    (by norm_num [compressStep, stepSettings, initState, percentOfTarget,
      target_size_bytes, transcodeDims, evenDim, get_encode_settings,
      correctedTargetBitrate, baseBitrate, pyRound, crush_mode,
      target_audio_bitrate, target_video_bitrate, fpsCeilingAndPreset,
      target_fps_of, unclamped_preset_height, lockClamp, get_res_preset,
      findTier, bitrate_res_map_30, bitrate_res_map_60, Int.toNat])

/-- C8 counterexample: a portrait 270×480 run in which the recorded
resolution ceiling RISES from 256 after attempt 1 to 426 after attempt 2
(the controller records the derived full-frame height, not the preset
height, so for portrait sources the ceiling is not monotonically
lowered). -/
theorem c8_counterexample :
    compressStep ⟨1, .PREFER_CLEAR, 10, 270, 480, 30, (8388608/103627 : ℚ)⟩
        (fun _ => 629146) initState
      = Sum.inl ⟨(1835008/1123475 : ℚ), 1, true, some 256,
          (7864325/131072 : ℚ), 629146⟩ ∧
    compressStep ⟨1, .PREFER_CLEAR, 10, 270, 480, 30, (8388608/103627 : ℚ)⟩
        (fun _ => 629146)
        ⟨(1835008/1123475 : ℚ), 1, true, some 256, (7864325/131072 : ℚ), 629146⟩
      = Sum.inl ⟨(3367254360064/1262196075625 : ℚ), 2, true, some 426,
          (7864325/131072 : ℚ), 629146⟩ ∧
    (256 : ℕ) < 426 := by
  refine ⟨?_, ?_, by norm_num⟩ <;>
    norm_num [compressStep, stepSettings, initState, percentOfTarget,
      target_size_bytes, transcodeDims, evenDim, get_encode_settings,
      correctedTargetBitrate, baseBitrate, pyRound, crush_mode,
      target_audio_bitrate, target_video_bitrate, fpsCeilingAndPreset,
      target_fps_of, unclamped_preset_height, lockClamp, get_res_preset,
      findTier, bitrate_res_map_30, bitrate_res_map_60, Int.toNat]

/-- C8 amended: (i) once a non-zero resolution ceiling `R` is recorded,
every call to `get_encode_settings` with that ceiling returns an output
height at most `R`; (ii) for LANDSCAPE sources (height ≤ width) the
recorded ceiling is only ever lowered, never raised; for portrait
sources the ceiling records the derived full-frame height and can
increase. -/
theorem c8_amended :
    (∀ (M : ℕ) (fm : FpsMode) (w h : ℕ) (fps dur f : ℚ) (fc : Bool) (R : ℕ),
      R ≠ 0 →
      (get_encode_settings M fm w h fps dur f fc (some R)).presetHeight ≤ R) ∧
    (∀ (cfg : Config) (oracle : ℕ → ℕ) (st st' : LoopState) (R R' : ℕ),
      cfg.height ≤ cfg.width → st.lowest_res = some R → R ≠ 0 →
      compressStep cfg oracle st = Sum.inl st' →
      st'.lowest_res = some R' → R' ≤ R) := by
  constructor
  · intro M fm w h fps dur f fc R hR
    rw [ges_presetHeight]
    exact lockClamp_le _ hR
  · intro cfg oracle st st' R R' hland hlow hR hstep hlow'
    obtain ⟨rfl, _, _⟩ := compressStep_inl hstep
    simp only at hlow'
    split_ifs at hlow' with hpct
    · have hdims : (transcodeDims cfg.width cfg.height
          (stepSettings cfg st).presetHeight).2
          = ((stepSettings cfg st).presetHeight : ℤ) := by
        unfold transcodeDims
        rw [if_neg (not_lt.mpr hland)]
      rw [hdims, Int.toNat_natCast] at hlow'
      injection hlow' with hR'
      rw [← hR']
      unfold stepSettings
      rw [hlow, ges_presetHeight]
      exact lockClamp_le _ hR
    · rw [hlow] at hlow'
      injection hlow' with hR'
      exact le_of_eq hR'.symm

theorem c8_witness :
    (get_encode_settings 1 .AUTO 1920 1080 30 10 1 false
      (some 240)).presetHeight ≤ 240 ∧ (480 : ℕ) ≤ 480 :=
  ⟨c8_amended.1 1 .AUTO 1920 1080 30 10 1 false 240 (by norm_num),
   c8_amended.2 ⟨1, .PREFER_CLEAR, 10, 1920, 1080, 30, (8388608/725389 : ℚ)⟩
     (fun _ => 104858) ⟨1, 0, false, some 480, 200, 0⟩
     ⟨(12845056/1310725 : ℚ), 1, false, some 480, (1310725/131072 : ℚ), 104858⟩
     480 480 (by norm_num) rfl (by norm_num)
     (by norm_num [compressStep, stepSettings, initState, percentOfTarget,
       target_size_bytes, transcodeDims, evenDim, get_encode_settings,
       correctedTargetBitrate, baseBitrate, pyRound, crush_mode,
       target_audio_bitrate, target_video_bitrate, fpsCeilingAndPreset,
       target_fps_of, unclamped_preset_height, lockClamp, get_res_preset,
       findTier, bitrate_res_map_30, bitrate_res_map_60, Int.toNat]) rfl⟩

/-- Loop-level invariant lemma behind C1: if the modelled `compress` loop
returns success, the final `percent_of_target` is at most 100, and either
it lies above `100 - tolerance` (normal exit through the `while` guard)
or the run ended through the early `break` (a state whose step returned
the success outcome directly, which requires `res_reduction_applied` and
an under-target size). -/
theorem compressLoop_success {cfg : Config} {oracle : ℕ → ℕ} (fuel : ℕ)
    (st : LoopState) {s : ℕ}
    (hinv : st.percent_of_target = percentOfTarget cfg st.after_size_bytes ∨
      100 < st.percent_of_target)
    (h : compressLoop fuel cfg oracle st = .success s) :
    percentOfTarget cfg s ≤ 100 ∧
    (100 - (cfg.tolerance : ℚ) ≤ percentOfTarget cfg s ∨
      ∃ st', compressStep cfg oracle st' = Sum.inr (.success s)) := by
  induction fuel generalizing st with
  | zero => exact absurd h (by simp [compressLoop])
  | succ n ih =>
      rw [compressLoop] at h
      split_ifs at h with hguard
      · cases hstep : compressStep cfg oracle st with
        | inl st' =>
            rw [hstep] at h
            apply ih st' _ h
            obtain ⟨rfl, _, _⟩ := compressStep_inl hstep
            left
            rfl
        | inr o =>
            rw [hstep] at h
            change o = Outcome.success s at h
            subst h
            obtain ⟨rfl, hrr, hlt⟩ := compressStep_inr_success hstep
            exact ⟨le_of_lt hlt, Or.inr ⟨st, hstep⟩⟩
      · push_neg at hguard
        obtain ⟨hge, hle⟩ := hguard
        injection h with hs
        subst hs
        rcases hinv with hinv | hinv
        · rw [← hinv]
          exact ⟨hle, Or.inl hge⟩
        · exact absurd hle (not_le.mpr hinv)

/-- C1 amended: the controller loop exits with success if and only if the
final `percent_of_target` lies in `[100 − tolerance, 100]` OR the run
ended through the early `break` (resolution reduction applied and output
strictly under target); in particular an overshoot above 100 is never
accepted, but an undershoot below `100 − tolerance` CAN be accepted via
the early exit. -/
theorem c1_amended :
    (∀ (cfg : Config) (oracle : ℕ → ℕ) (fuel s : ℕ),
      compress cfg oracle fuel = .success s →
      percentOfTarget cfg s ≤ 100 ∧
      (100 - (cfg.tolerance : ℚ) ≤ percentOfTarget cfg s ∨
        ∃ st', compressStep cfg oracle st' = Sum.inr (.success s))) ∧
    (∀ (cfg : Config) (oracle : ℕ → ℕ) (fuel : ℕ) (st : LoopState),
      ¬(st.percent_of_target < 100 - (cfg.tolerance : ℚ) ∨
        100 < st.percent_of_target) →
      compressLoop (fuel + 1) cfg oracle st = .success st.after_size_bytes) := by
  constructor
  · intro cfg oracle fuel s h
    exact compressLoop_success fuel initState
      (Or.inr (by norm_num [initState])) h
  · intro cfg oracle fuel st hband
    rw [compressLoop, if_neg hband]

theorem c1_witness :
    percentOfTarget ⟨1, .PREFER_CLEAR, 10, 1920, 1080, 30,
        (8388608/725389 : ℚ)⟩ 996148 ≤ 100 ∧
    (100 - ((10:ℕ) : ℚ) ≤ percentOfTarget ⟨1, .PREFER_CLEAR, 10, 1920, 1080,
        30, (8388608/725389 : ℚ)⟩ 996148 ∨
      ∃ st', compressStep ⟨1, .PREFER_CLEAR, 10, 1920, 1080, 30,
        (8388608/725389 : ℚ)⟩ (fun _ => 996148) st'
          = Sum.inr (.success 996148)) :=
  c1_amended.1 ⟨1, .PREFER_CLEAR, 10, 1920, 1080, 30, (8388608/725389 : ℚ)⟩
    (fun _ => 996148) 5 996148
    (by norm_num [compress, compressLoop, compressStep, stepSettings, initState,
      percentOfTarget, target_size_bytes, transcodeDims, evenDim,
      get_encode_settings, correctedTargetBitrate, baseBitrate, pyRound,
      crush_mode, target_audio_bitrate, target_video_bitrate,
      fpsCeilingAndPreset, target_fps_of, unclamped_preset_height, lockClamp,
      get_res_preset, findTier, bitrate_res_map_30, bitrate_res_map_60,
      Int.toNat])

/-- C1 counterexample: a run (landscape 1920×1080, tolerance 10) whose
second attempt is clamped by the recorded resolution ceiling and lands at
about 60% of target: the loop exits with success although the final
`percent_of_target` is strictly below `100 − tolerance` — success is NOT
equivalent to the final percentage lying in the acceptance band. -/
theorem c1_counterexample :
    compress ⟨1, .PREFER_CLEAR, 10, 1920, 1080, 30, (8388608/725389 : ℚ)⟩
      (fun _ => 629146) 5 = Outcome.success 629146 ∧
    percentOfTarget ⟨1, .PREFER_CLEAR, 10, 1920, 1080, 30,
      (8388608/725389 : ℚ)⟩ 629146 < 100 - 10 := by
  constructor <;>
    norm_num [compress, compressLoop, compressStep, stepSettings, initState,
      percentOfTarget, target_size_bytes, transcodeDims, evenDim,
      get_encode_settings, correctedTargetBitrate, baseBitrate, pyRound,
      crush_mode, target_audio_bitrate, target_video_bitrate,
      fpsCeilingAndPreset, target_fps_of, unclamped_preset_height, lockClamp,
      get_res_preset, findTier, bitrate_res_map_30, bitrate_res_map_60,
      Int.toNat]

end Constrict
